import Mathlib

/-!
Shallow embedding of the check_logmultiline log-scanning engine
(src/logfile.rs, src/state.rs, src/main.rs, src/args.rs).

Regular expressions of the regex crate are embedded as match predicates
(String to Bool); file system reads are embedded as explicit data: a log
file carries the outcome of its metadata call, of File::open, and the
items its BufReader line iterator would yield. Timestamps (SystemTime,
DateTime) are embedded as Int seconds. JSON (de)serialization of the
state document is an external collaborator and is passed in as an
explicit parse function.
-/

namespace CheckLogMultiline

/-- ProblemType from logfile.rs lines 57 to 63, with the enum
discriminants used as process exit codes. -/
inductive ProblemType
  | OK
  | WARNING
  | CRITICAL
  | UNKNOWN
deriving DecidableEq, Repr

/-- The numeric discriminant of the ProblemType enum (OK = 0,
WARNING = 1, CRITICAL = 2, UNKNOWN = 3). -/
def ProblemType.code : ProblemType → Nat
  | .OK => 0
  | .WARNING => 1
  | .CRITICAL => 2
  | .UNKNOWN => 3

/-- A compiled regular expression is embedded by its match predicate,
the behavior of Regex::is_match. -/
abbrev Matcher := String → Bool

/-- Pattern from logfile.rs line 19: a problem type paired with a
compiled regular expression. -/
abbrev Pattern := ProblemType × Matcher

/-- Message from logfile.rs lines 44 to 54. -/
structure Message where
  line_number : Int
  message_type : ProblemType
  message : String
deriving DecidableEq, Repr

/-- Message::new from logfile.rs lines 122 to 129. -/
def Message.new : Message :=
  { line_number := 0, message_type := ProblemType.UNKNOWN, message := "" }

/-- Match from logfile.rs lines 22 to 41. Paths are embedded as strings
and DateTime values as Int seconds. -/
structure Match where
  path : String
  lines_count : Nat
  last_line_number : Int
  file_size : Nat
  messages : List Message
  keep_until : Int
deriving DecidableEq, Repr

/-- State from state.rs lines 16 to 36. The timestamp field is named
created in state.rs and is read as the modification reference point by
find (logfile.rs line 154); it is called modified here. -/
structure State where
  path : String
  size : Nat
  modified : Int
  line_number : Int
  kept_matches : List Match
deriving DecidableEq, Repr

/-- State::new from state.rs lines 40 to 48: UNIX_EPOCH is second 0 and
line_number starts at the sentinel -1. -/
def State.new (log_file : String) : State :=
  { path := log_file, size := 0, modified := 0, line_number := -1, kept_matches := [] }

/-- StateDoc from state.rs lines 52 to 57. -/
structure StateDoc where
  states : List State
deriving DecidableEq, Repr

/-- A log file as find observes it: the outcome of file_modified
(logfile.rs lines 217 to 223), the metadata length, the outcome of
File::open, and the items of the BufReader lines iterator, each either
a read line or a read error. -/
structure LogFile where
  mtime : Except String Int
  size : Nat
  openErr : Option String
  lines : List (Except String String)

instance : Inhabited LogFile := ⟨⟨Except.ok 0, 0, none, []⟩⟩

/-- find_in_message from logfile.rs lines 205 to 212: every pattern is
tried against the accumulated message text; on a match the message type
is overwritten with the pattern type and a clone is pushed. -/
def find_in_message (message : Message) (patterns : List Pattern) (mres : Match) :
    Message × Match :=
  patterns.foldl
    (fun acc p =>
      if p.2 acc.1.message then
        let m := { acc.1 with message_type := p.1 }
        (m, { acc.2 with messages := acc.2.messages ++ [m] })
      else acc)
    (message, mres)

/-- The per-file line loop of find (logfile.rs lines 174 to 195): the
while-let iterates while the next item exists and is Ok, so the loop
also ends silently at the first read error; the trailing
find_in_message call at line 195 is the flush after the loop. -/
def scanFileLines (line_re : Matcher) (patterns : List Pattern) (stateLine : Int) :
    List (Except String String) → Int → Message → Match → Match
  | [], _, message, mres => (find_in_message message patterns mres).2
  | Except.error _ :: _, _, message, mres => (find_in_message message patterns mres).2
  | Except.ok line :: rest, idx, message, mres =>
    if idx ≤ stateLine then
      scanFileLines line_re patterns stateLine rest (idx + 1) message mres
    else
      let message := { message with line_number := idx }
      let step :=
        if line_re line then
          let fl := find_in_message message patterns mres
          (Message.new, fl.2)
        else (message, mres)
      let message := { step.1 with message := step.1.message ++ line ++ "\n" }
      let mres := { step.2 with
        lines_count := step.2.lines_count + 1,
        last_line_number := idx }
      scanFileLines line_re patterns stateLine rest (idx + 1) message mres

/-- One pass of the file loop body (logfile.rs lines 170 to 195): open
the file, mapping an open failure to an error, then run the line loop
starting from a fresh Message. -/
def scanOneFile (line_re : Matcher) (patterns : List Pattern) (stateLine : Int)
    (f : LogFile) (mres : Match) : Except String Match :=
  match f.openErr with
  | some e => Except.error ("Could not search in log file: " ++ e)
  | none => Except.ok (scanFileLines line_re patterns stateLine f.lines 0 Message.new mres)

/-- The file loop of find over the selected index list. -/
def scanFilesFrom (files : List LogFile) (line_re : Matcher) (patterns : List Pattern)
    (stateLine : Int) : List Nat → Match → Except String Match
  | [], mres => Except.ok mres
  | i :: rest, mres =>
    match scanOneFile line_re patterns stateLine (files.getD i default) mres with
    | Except.error e => Except.error e
    | Except.ok ms => scanFilesFrom files line_re patterns stateLine rest ms

/-- The selector loop of find (logfile.rs lines 151 to 158): walk the
files in order, break at the first file whose modification time is at
or before the state timestamp, and otherwise record the index. The
accumulator fs starts at files.len() - 1 and the index of the break
iteration is never assigned to it. -/
def selectorGo (stateModified : Int) : List LogFile → Nat → Nat → Except String Nat
  | [], _, fs => Except.ok fs
  | f :: rest, idx, fs =>
    match f.mtime with
    | Except.error e => Except.error e
    | Except.ok t =>
      if stateModified ≥ t then Except.ok fs
      else selectorGo stateModified rest (idx + 1) idx

/-- file_selector as computed by find before the scan loop. -/
def fileSelector (files : List LogFile) (stateModified : Int) : Except String Nat :=
  selectorGo stateModified files 0 (files.length - 1)

/-- The index sequence the scan loop of find visits:
(0..=file_selector).rev(), that is file_selector down to 0. -/
def resolvedScanIndexes (files : List LogFile) (stateModified : Int) :
    Except String (List Nat) :=
  match fileSelector files stateModified with
  | Except.error e => Except.error e
  | Except.ok fs => Except.ok (List.range (fs + 1)).reverse

/-- find from logfile.rs lines 144 to 198. The file list is non-empty
by the Stream invariant (args.rs builds it with the configured file
first); it is passed as a head plus a tail. The Match accumulator is
initialized from the state and from the metadata length of the first
file, and keep_until is initialized to the current time. -/
def find (f0 : LogFile) (restFiles : List LogFile) (state : State) (line_re : Matcher)
    (patterns : List Pattern) (now : Int) : Except String Match :=
  let files := f0 :: restFiles
  match resolvedScanIndexes files state.modified with
  | Except.error e => Except.error e
  | Except.ok idxs =>
    scanFilesFrom files line_re patterns state.line_number idxs
      { path := state.path, lines_count := 0, last_line_number := state.line_number,
        file_size := f0.size, messages := [], keep_until := now }

/-! State store (state.rs StateLoader). -/

/-- What the state location holds on disk. -/
inductive FsEntry
  | directory
  | missing
  | file (content : String)

/-- StateLoader::load from state.rs lines 80 to 92, together with
StateLoader::open_file (lines 112 to 128). A directory is rejected
first; open_file opens with create(true), so a missing file is created
empty and read_to_string then yields the empty string; the content is
handed to serde_json, embedded here as an explicit parse function, and
a parse failure is wrapped into a StateError string. -/
def StateLoader.load (entry : FsEntry) (parse : String → Except String StateDoc) :
    Except String StateDoc :=
  match entry with
  | FsEntry.directory => Except.error "State file is a directory"
  | FsEntry.missing =>
    match parse "" with
    | Except.ok states => Except.ok states
    | Except.error e => Except.error ("Could not parse state file: " ++ e)
  | FsEntry.file content =>
    match parse content with
    | Except.ok states => Except.ok states
    | Except.error e => Except.error ("Could not parse state file: " ++ e)

/-! Per-stream state update and aggregation (main.rs). The scan result
of a stream is taken as an input here: in main.rs it is produced by
find from the same state, and any find failure exits the process before
any state is saved. -/

/-- The values main.rs observes for one configured stream: the path of
the first file (file[0]), the successful find result, Utc::now() at the
pruning point of this stream (main.rs line 77), and the creation
timestamp of file[0] (main.rs line 89). -/
structure StreamRun where
  path : String
  result : Match
  now : Int
  file0_created : Int
deriving Repr

/-- Match::any_critical from logfile.rs lines 81 to 85. -/
def Match.any_critical (m : Match) : Bool :=
  m.messages.any (fun msg => decide (msg.message_type = ProblemType.CRITICAL))

/-- Match::any_warning from logfile.rs lines 88 to 92. -/
def Match.any_warning (m : Match) : Bool :=
  m.messages.any (fun msg => decide (msg.message_type = ProblemType.WARNING))

/-- Match::count_critical from logfile.rs lines 95 to 100. -/
def Match.count_critical (m : Match) : Nat :=
  m.messages.countP (fun msg => decide (msg.message_type = ProblemType.CRITICAL))

/-- Match::count_warning from logfile.rs lines 103 to 108. -/
def Match.count_warning (m : Match) : Nat :=
  m.messages.countP (fun msg => decide (msg.message_type = ProblemType.WARNING))

/-- main.rs lines 76 to 84: prune kept matches whose keep_until is
before now, then, if keep_status is positive and the fresh result has
at least one message, set its keep_until to now plus keep_status and
append it. Returns the new kept list and the (possibly updated) fresh
Match that main.rs pushes into its matches vector. -/
def pruneAppend (kept : List Match) (result : Match) (keep_status now : Int) :
    List Match × Match :=
  let pruned := kept.filter (fun m => decide (m.keep_until ≥ now))
  if 0 < keep_status ∧ 0 < result.messages.length then
    let m := { result with keep_until := now + keep_status }
    (pruned ++ [m], m)
  else (pruned, result)

/-- main.rs lines 76 to 101: the full per-stream mutation of a stream
State: prune and append kept matches, then overwrite line_number, size
and the stored timestamp with the newly observed values. -/
def updateState (st : State) (keep_status : Int) (sr : StreamRun) : State × Match :=
  let pa := pruneAppend st.kept_matches sr.result keep_status sr.now
  ({ st with
      kept_matches := pa.1,
      line_number := pa.2.last_line_number,
      size := pa.2.file_size,
      modified := sr.file0_created },
   pa.2)

/-- The lookup part of main.rs lines 57 to 68: find the first state
whose path equals file[0] and mutate it in place; none means no state
with that path exists. -/
def applyStates (keep_status : Int) (sr : StreamRun) :
    List State → Option (List State × Match)
  | [] => none
  | st :: rest =>
    if st.path = sr.path then
      let um := updateState st keep_status sr
      some (um.1 :: rest, um.2)
    else
      match applyStates keep_status sr rest with
      | some (rest', m) => some (st :: rest', m)
      | none => none

/-- main.rs lines 55 to 104 for one stream: locate the stream State or
push a fresh State::new, then apply the per-stream mutation. -/
def applyStream (doc : StateDoc) (keep_status : Int) (sr : StreamRun) :
    StateDoc × Match :=
  match applyStates keep_status sr doc.states with
  | some (states', m) => (⟨states'⟩, m)
  | none =>
    let um := updateState (State.new sr.path) keep_status sr
    (⟨doc.states ++ [um.1]⟩, um.2)

/-- The whole stream loop of main.rs lines 55 to 104: thread the state
document through every configured stream and collect the fresh Match
results in order. -/
def runStreams (doc : StateDoc) (keep_status : Int) :
    List StreamRun → StateDoc × List Match
  | [] => (doc, [])
  | sr :: rest =>
    let step := applyStream doc keep_status sr
    let next := runStreams step.1 keep_status rest
    (next.1, step.2 :: next.2)

/-- main.rs lines 115 to 121: the kept matches considered by the
aggregation are those of states whose path equals the first file of
some configured stream. -/
def keptMatchesOf (doc : StateDoc) (paths : List String) : List Match :=
  ((doc.states.filter (fun st => paths.any (fun p => decide (st.path = p)))).map
    State.kept_matches).flatten

/-- main.rs lines 122 to 135: the overall problem type is CRITICAL if
any fresh or kept match has a CRITICAL message, else WARNING if any has
a WARNING message, else OK; keep_status is not consulted here. -/
def overallCode (fresh kept : List Match) : ProblemType :=
  if fresh.any Match.any_critical || kept.any Match.any_critical then
    ProblemType.CRITICAL
  else if fresh.any Match.any_warning || kept.any Match.any_warning then
    ProblemType.WARNING
  else
    ProblemType.OK

/-- main.rs line 189: exit(code as i32). -/
def exitCode (p : ProblemType) : Nat := p.code

/-- main.rs lines 142 to 147 and 149 to 154: fold a count over a match
list. -/
def totalCount (count : Match → Nat) (ms : List Match) : Nat :=
  ms.foldl (fun c m => c + count m) 0

/-- The debug formatting of ProblemType used by its Display
implementation (logfile.rs lines 132 to 136). -/
def ProblemType.show : ProblemType → String
  | .OK => "OK"
  | .WARNING => "WARNING"
  | .CRITICAL => "CRITICAL"
  | .UNKNOWN => "UNKNOWN"

/-- Display for Message (logfile.rs lines 111 to 119). -/
def Message.render (msg : Message) : String :=
  msg.message_type.show ++ "(" ++ toString msg.line_number ++ "): " ++ msg.message

/-- Display for Match (logfile.rs lines 65 to 77). -/
def Match.render (m : Match) : String :=
  "File: " ++ m.path ++ "\n" ++ String.join (m.messages.map (fun msg => msg.render ++ "\n"))

/-- main.rs lines 165 to 179: the detail blocks of the output are
rendered from the kept matches when keep_status is positive and from
the fresh matches otherwise, skipping matches without messages. -/
def detailBlocks (keep_status : Int) (kept fresh : List Match) : List String :=
  ((if 0 < keep_status then kept else fresh).filter
    (fun m => 0 < m.messages.length)).map Match.render

/-- The newest-first walk described by the specification of the
Rotation Resolver: the index of the first file whose timestamp is at or
before the state timestamp. -/
def firstAtOrBefore (stateModified : Int) : List Int → Option Nat
  | [] => none
  | t :: ts =>
    if stateModified ≥ t then some 0
    else (firstAtOrBefore stateModified ts).map (fun i => i + 1)

/-- How many leading files of the newest-first candidate list the code
actually scans: when the newest-first walk stops at position k+1, the
k+1 strictly newer files; when it stops at the newest file or finds no
file at or before the state timestamp, all of them. -/
def resumeScanCount (stateModified : Int) (ts : List Int) : Nat :=
  match firstAtOrBefore stateModified ts with
  | some (k + 1) => k + 1
  | some 0 => ts.length
  | none => ts.length

/-- Helper for stating the degenerate-boundary claim: the message
accumulation a boundary-free file loop performs, starting at line index
idx (logfile.rs lines 184 and 191). -/
def appendAll (msg : Message) (idx : Int) : List String → Message
  | [] => msg
  | l :: rest =>
    appendAll { msg with line_number := idx, message := msg.message ++ l ++ "\n" } (idx + 1) rest

/-- Helper for stating the degenerate-boundary claim: the counters a
boundary-free file loop accumulates (logfile.rs lines 192 and 193). -/
def bumpAll (mres : Match) (idx : Int) : List String → Match
  | [] => mres
  | _ :: rest =>
    bumpAll { mres with lines_count := mres.lines_count + 1, last_line_number := idx } (idx + 1) rest

/-- The text obtained by folding a list of lines into one message body,
each line followed by a newline, appended onto a base string. -/
def foldedFrom (base : String) : List String → String
  | [] => base
  | l :: rest => foldedFrom (base ++ l ++ "\n") rest

/-- The match predicate of Regex::new applied to the empty pattern: the
empty regular expression matches every string, and the empty pattern is
the default line pattern of args.rs line 133. -/
def emptyPatternMatcher : Matcher := fun _ => true

/-- All messages carried by a list of matches, in order. -/
def allMessages (ms : List Match) : List Message :=
  (ms.map Match.messages).flatten

/-! Concrete fixtures used by counterexample and failing-input
theorems. -/

/-- A current log file with two fresh lines, newer than the state
timestamp. -/
def newerFileFx : LogFile :=
  ⟨Except.ok 100, 10, none, [Except.ok "n0", Except.ok "n1"]⟩

/-- An older rotated log file with four lines. -/
def olderFileFx : LogFile :=
  ⟨Except.ok 50, 3, none, [Except.ok "o0", Except.ok "o1", Except.ok "o2", Except.ok "o3"]⟩

/-- A prior state that already processed lines up to index 2. -/
def resumedStateFx : State := ⟨"log", 0, 30, 2, []⟩

/-- A single pattern list that matches every message with CRITICAL. -/
def matchAllFx : List Pattern := [(ProblemType.CRITICAL, fun _ => true)]

/-- A line pattern that never declares a boundary. -/
def noBoundaryFx : Matcher := fun _ => false

/-- A current file holding one line, with modification time 100. -/
def currentOneLineFx : LogFile := ⟨Except.ok 100, 5, none, [Except.ok "n0"]⟩

/-- A rotated file holding one line, with modification time 50. -/
def rotatedOneLineFx : LogFile := ⟨Except.ok 50, 3, none, [Except.ok "o0"]⟩

/-- A fresh-lines state whose recorded timestamp 70 lies between the
two fixture modification times 50 and 100. -/
def betweenStateFx : State := ⟨"log", 0, 70, -1, []⟩

/-- A file whose second line item is a read error. -/
def readErrorFileFx : LogFile :=
  ⟨Except.ok 100, 7, none, [Except.ok "a", Except.error "stream did not contain valid UTF-8"]⟩

/-- A fresh state for the read-error fixture. -/
def freshStateFx : State := ⟨"log", 0, 0, -1, []⟩

/-- A kept match from a previous run holding one CRITICAL message, kept
until time 100. -/
def keptCriticalFx : Match :=
  ⟨"log", 0, 5, 10, [⟨1, ProblemType.CRITICAL, "boom\n"⟩], 100⟩

/-- A state document whose only stream state carries the kept CRITICAL
match. -/
def keptDocFx : StateDoc := ⟨[⟨"log", 10, 40, 5, [keptCriticalFx]⟩]⟩

/-- A fresh scan result with no matched messages. -/
def quietResultFx : Match := ⟨"log", 0, 5, 10, [], 0⟩

/-- The stream run observing the quiet result at time 50. -/
def quietRunFx : StreamRun := ⟨"log", quietResultFx, 50, 45⟩

/-- A kept match of an unconfigured stream whose keep_until 10 already
passed. -/
def expiredOtherFx : Match :=
  ⟨"other", 0, 2, 4, [⟨0, ProblemType.WARNING, "w\n"⟩], 10⟩

/-- A state document holding only the state of the unconfigured stream
with the expired kept match. -/
def otherDocFx : StateDoc := ⟨[⟨"other", 4, 5, 2, [expiredOtherFx]⟩]⟩

/-- An empty scan result for the configured stream of the expiry
counterexample. -/
def emptyResultFx : Match := ⟨"log", 0, -1, 0, [], 0⟩

/-- The stream run observing the empty result at time 50. -/
def emptyRunFx : StreamRun := ⟨"log", emptyResultFx, 50, 45⟩

/-- A stream run whose fresh result is the CRITICAL match, observed at
time 50. -/
def critRunFx : StreamRun := ⟨"log", keptCriticalFx, 50, 45⟩

/-! Theorems. -/

/-- Unfolding find_in_message over the head pattern. -/
lemma find_in_message_cons (msg : Message) (p : Pattern) (ps : List Pattern) (M : Match) :
    find_in_message msg (p :: ps) M
      = if p.2 msg.message then
          find_in_message { msg with message_type := p.1 } ps
            { M with messages := M.messages ++ [{ msg with message_type := p.1 }] }
        else find_in_message msg ps M := by
  by_cases h : p.2 msg.message <;> simp [find_in_message, h]

/-- find_in_message on an exploded message: one pushed copy per
matching pattern, in pattern order. -/
lemma find_in_message_msgs (ln : Int) (ty : ProblemType) (txt : String)
    (P : List Pattern) (M : Match) :
    (find_in_message ⟨ln, ty, txt⟩ P M).2
      = { M with messages := M.messages
            ++ (P.filter (fun p => p.2 txt)).map (fun p => ⟨ln, p.1, txt⟩) } := by
  induction P generalizing ty M with
  | nil => simp [find_in_message]
  | cons p ps ih =>
    rw [find_in_message_cons]
    by_cases h : p.2 txt
    · simp only [h, if_pos]
      rw [ih]
      simp [h, List.filter_cons]
    · simp only [h]
      rw [if_neg (by simp [h])]
      rw [ih]
      simp [h, List.filter_cons]

/-- C1: when no prior state file exists, StateLoader::load does not
return an empty StateDocument: open_file creates the file with
create(true), read_to_string yields the empty string, and serde_json
rejects the empty string as JSON (its parse function errors on empty
input), so load fails with a StateError instead. -/
theorem stateLoader_load_missing_fails
    (parse : String → Except String StateDoc) (e : String)
    (h : parse "" = Except.error e) :
    StateLoader.load FsEntry.missing parse
      = Except.error ("Could not parse state file: " ++ e) := by
  simp [StateLoader.load, h]

/-- Witness for stateLoader_load_missing_fails at a parse function that
rejects the empty string with the serde_json end-of-file message. -/
theorem stateLoader_load_missing_fails_witness :
    StateLoader.load FsEntry.missing
      (fun s => if s = "" then Except.error "EOF while parsing a value at line 1 column 0"
                else Except.ok ⟨[]⟩)
      = Except.error ("Could not parse state file: "
          ++ "EOF while parsing a value at line 1 column 0") :=
  stateLoader_load_missing_fails _ _ (by simp)

/-- C2: the skip of lines with index at most state.line_number
(logfile.rs line 181) is applied inside every iteration of the file
loop, not only to the first file scanned: with prior line number 2,
both lines of the newer current file are skipped, so the scan reads
only one line (index 3 of the older file) and never sees the text n0
or n1 of the newer file. -/
theorem find_skips_lines_in_newer_files :
    find newerFileFx [olderFileFx] resumedStateFx noBoundaryFx matchAllFx 0
      = Except.ok ⟨"log", 1, 3, 10,
          [⟨3, ProblemType.CRITICAL, "o3\n"⟩, ⟨0, ProblemType.CRITICAL, ""⟩], 0⟩ := by
  rfl

/-- C3 counterexample: with candidate modification times 100 and 50 and
state timestamp 70, the first file at or before the state timestamp in
the newest-first walk is the rotated file at index 1, yet the scanned
index sequence is only the strictly newer file at index 0; the line o0
of the resume-point file is never read. -/
theorem resolvedScan_excludes_resume_file_example :
    resolvedScanIndexes [currentOneLineFx, rotatedOneLineFx] 70 = Except.ok [0]
    ∧ find currentOneLineFx [rotatedOneLineFx] betweenStateFx noBoundaryFx matchAllFx 0
        = Except.ok ⟨"log", 1, 0, 5, [⟨0, ProblemType.CRITICAL, "n0\n"⟩], 0⟩ := by
  exact ⟨rfl, rfl⟩

/-- C5 counterexample: the empty line pattern, the default of args.rs
line 133, matches every line, so instead of folding the whole file into
one Message the scanner emits one Message per line (plus the empty text
flushed at the first boundary): two lines produce three classified
messages, not one. -/
theorem emptyPattern_splits_every_line_example :
    (scanFileLines emptyPatternMatcher matchAllFx (-1)
        [Except.ok "a", Except.ok "b"] 0 Message.new ⟨"log", 0, -1, 9, [], 0⟩).messages
      = [⟨0, ProblemType.CRITICAL, ""⟩, ⟨1, ProblemType.CRITICAL, "a\n"⟩,
         ⟨0, ProblemType.CRITICAL, "b\n"⟩] := by
  rfl

/-- C6 counterexample: a per-line read error is not propagated: the
while-let of logfile.rs line 176 simply stops matching at the Err item,
the in-flight message is flushed, and find returns Ok with the partial
results instead of an error. -/
theorem find_swallows_line_read_error_example :
    find readErrorFileFx [] freshStateFx noBoundaryFx matchAllFx 0
      = Except.ok ⟨"log", 1, 0, 7, [⟨0, ProblemType.CRITICAL, "a\n"⟩], 0⟩ := by
  rfl

/-- C7 counterexample: with keep_status 0 (retention disabled), no
fresh message at all, and an unexpired kept CRITICAL match in the
state, main still reports CRITICAL: the kept matches are consulted
regardless of the retention setting. -/
theorem overallCode_counts_kept_when_retention_disabled :
    overallCode (runStreams keptDocFx 0 [quietRunFx]).2
        (keptMatchesOf (runStreams keptDocFx 0 [quietRunFx]).1 ["log"])
      = ProblemType.CRITICAL
    ∧ (runStreams keptDocFx 0 [quietRunFx]).2.all (fun m => m.messages.isEmpty) = true := by
  exact ⟨rfl, rfl⟩

/-- C8 counterexample: a kept alert of a stream that is not configured
in the current run is never pruned: its state is left untouched, so an
alert whose keep_until 10 is before the pruning time 50 still survives
the run in the persisted state document. -/
theorem expired_alert_survives_for_unconfigured_stream :
    (runStreams otherDocFx 60 [emptyRunFx]).1
      = ⟨[⟨"other", 4, 5, 2, [expiredOtherFx]⟩, ⟨"log", 0, 45, -1, []⟩]⟩
    ∧ expiredOtherFx.keep_until < emptyRunFx.now := by
  exact ⟨rfl, by decide⟩

/-- A read error item ends the line loop exactly where the Ok items
before it end, with the same flush. -/
lemma scanFileLines_stops_at_err (lr : Matcher) (P : List Pattern) (sl : Int)
    (e : String) (suf : List (Except String String)) (L : List String) :
    ∀ (idx : Int) (msg : Message) (M : Match),
    scanFileLines lr P sl (L.map Except.ok ++ Except.error e :: suf) idx msg M
      = scanFileLines lr P sl (L.map Except.ok) idx msg M := by
  induction L with
  | nil => intro idx msg M; rfl
  | cons l ls ih =>
    intro idx msg M
    simp only [List.map_cons, List.cons_append, scanFileLines]
    by_cases h : idx ≤ sl
    · simp only [h, if_pos]
      exact ih (idx + 1) msg M
    · simp only [h, if_neg, if_false]
      exact ih (idx + 1) _ _

/-- appendAll only accumulates text. -/
lemma appendAll_message (L : List String) :
    ∀ (msg : Message) (idx : Int),
    (appendAll msg idx L).message = foldedFrom msg.message L := by
  induction L with
  | nil => intro msg idx; rfl
  | cons l ls ih => intro msg idx; simp only [appendAll, foldedFrom]; exact ih _ _

/-- With a boundary pattern that never matches, the line loop past the
skip region only accumulates, and classifies once at the end. -/
lemma scan_noboundary (lr : Matcher) (P : List Pattern) (sl : Int)
    (hlr : ∀ s, lr s = false) (L : List String) :
    ∀ (idx : Int) (msg : Message) (M : Match), sl < idx →
    scanFileLines lr P sl (L.map Except.ok) idx msg M
      = (find_in_message (appendAll msg idx L) P (bumpAll M idx L)).2 := by
  induction L with
  | nil => intro idx msg M _; rfl
  | cons l ls ih =>
    intro idx msg M hidx
    simp only [List.map_cons, scanFileLines]
    rw [if_neg (by omega)]
    simp only [hlr l, if_false]
    rw [ih (idx + 1) _ _ (by omega)]
    rfl

/-- Lines whose indexes stay at or below the state line number are
skipped without touching the accumulators. -/
lemma scan_skips (lr : Matcher) (P : List Pattern) (sl : Int) (A : List String) :
    ∀ (B : List (Except String String)) (idx : Int) (msg : Message) (M : Match),
    (∀ i : Nat, i < A.length → idx + (i : Int) ≤ sl) →
    scanFileLines lr P sl (A.map Except.ok ++ B) idx msg M
      = scanFileLines lr P sl B (idx + (A.length : Int)) msg M := by
  induction A with
  | nil => intro B idx msg M _; simp
  | cons a as ih =>
    intro B idx msg M hA
    simp only [List.map_cons, List.cons_append, scanFileLines, List.append_eq]
    rw [if_pos (by have := hA 0 (by simp); simpa using this)]
    rw [ih B (idx + 1) msg M (fun i hi => by have := hA (i + 1) (by simpa using Nat.succ_lt_succ hi); push_cast at this ⊢; omega)]
    congr 1
    simp
    omega

/-- C6 amended: a per-line read error is not propagated as a
ScanError; the scan of that file succeeds with exactly the results of
the readable lines before the error, the in-flight message still being
flushed to the classifier, and the remaining items of the file are
ignored. -/
theorem scanOneFile_truncates_at_read_error (lr : Matcher) (P : List Pattern) (sl : Int)
    (mt : Except String Int) (sz : Nat) (L : List String) (e : String)
    (suf : List (Except String String)) (M : Match) :
    scanOneFile lr P sl ⟨mt, sz, none, L.map Except.ok ++ Except.error e :: suf⟩ M
      = Except.ok (scanFileLines lr P sl (L.map Except.ok) 0 Message.new M) := by
  simp [scanOneFile, scanFileLines_stops_at_err]

/-- C5 amended: when the boundary pattern never matches a line, all
lines of the file beyond the skip region are folded into one single
Message, whose text is every unskipped line followed by a newline, and
that message is handed to the classifier exactly once, at end of
input, even though no boundary terminated it. -/
theorem no_boundary_folds_file_into_single_message
    (lr : Matcher) (P : List Pattern) (sl : Int) (L : List String) (M : Match)
    (hlr : ∀ s, lr s = false) :
    scanFileLines lr P sl (L.map Except.ok) 0 Message.new M
      = (find_in_message (appendAll Message.new ((min L.length (sl + 1).toNat : Nat) : Int) (L.drop (min L.length (sl + 1).toNat))) P (bumpAll M ((min L.length (sl + 1).toNat : Nat) : Int) (L.drop (min L.length (sl + 1).toNat)))).2
    ∧ (appendAll Message.new ((min L.length (sl + 1).toNat : Nat) : Int) (L.drop (min L.length (sl + 1).toNat))).message
        = foldedFrom "" (L.drop (min L.length (sl + 1).toNat)) := by
  constructor
  · have hk : min L.length (sl + 1).toNat ≤ L.length := Nat.min_le_left _ _
    have hsplit : L.map Except.ok = (L.take (min L.length (sl + 1).toNat)).map Except.ok ++ (L.drop (min L.length (sl + 1).toNat)).map (Except.ok (ε := String)) := by
      rw [← List.map_append, List.take_append_drop]
    rw [hsplit]
    rw [scan_skips lr P sl _ _ 0 Message.new M (by
      intro i hi
      rw [List.length_take] at hi
      omega)]
    rw [List.length_take]
    cases hd : L.drop (min L.length (sl + 1).toNat) with
    | nil =>
      simp only [hd, List.map_nil, appendAll, bumpAll]
      rfl
    | cons b bs =>
      have hlt : (min L.length (sl + 1).toNat : Int) > sl := by
        have : min L.length (sl + 1).toNat < L.length ∨ min L.length (sl + 1).toNat = L.length := by omega
        rcases this with h | h
        · omega
        · exfalso
          have : L.drop (min L.length (sl + 1).toNat) = [] := by
            rw [h]; simp
          rw [this] at hd; exact List.noConfusion hd
      rw [scan_noboundary lr P sl hlr _ _ _ _ (by simpa using hlt)]
      congr 1
      all_goals simp [min_comm]
  · exact appendAll_message _ _ _

/-- Witness for no_boundary_folds_file_into_single_message on a
two-line file with a fresh state: both lines fold into one message
with text a newline b newline, classified once. -/
theorem no_boundary_folds_file_into_single_message_witness :
    scanFileLines (fun _ => false) matchAllFx (-1) (["a", "b"].map Except.ok) 0 Message.new ⟨"log", 0, -1, 9, [], 0⟩
      = (find_in_message (appendAll Message.new 0 ["a", "b"]) matchAllFx (bumpAll ⟨"log", 0, -1, 9, [], 0⟩ 0 ["a", "b"])).2
    ∧ (appendAll Message.new 0 ["a", "b"]).message = foldedFrom "" ["a", "b"] := by
  have h := no_boundary_folds_file_into_single_message (fun _ => false) matchAllFx (-1)
    ["a", "b"] ⟨"log", 0, -1, 9, [], 0⟩ (fun _ => rfl)
  simpa using h

/-- C4: classifying a message against a pattern list appends exactly
one annotated copy of the message per pattern that matches its text,
each copy carrying that pattern type, in pattern order, and nothing
else changes in the result accumulator; no pattern is skipped and no
match is deduplicated. -/
theorem find_in_message_appends_one_copy_per_matching_pattern
    (message : Message) (P : List Pattern) (M : Match) :
    (find_in_message message P M).2
      = { M with messages := M.messages
            ++ (P.filter (fun p => p.2 message.message)).map (fun p => { message with message_type := p.1 }) } := by
  obtain ⟨ln, ty, txt⟩ := message
  exact find_in_message_msgs ln ty txt P M

/-- The selector loop returns the index before the break position when
the break happens past the head, and the initial accumulator
files.len() - 1 when the break happens at the head or never. -/
lemma selectorGo_spec (T : Int) : ∀ (files : List LogFile) (ts : List Int),
    files.map LogFile.mtime = ts.map Except.ok → ∀ (idx fs : Nat),
    selectorGo T files idx fs
      = Except.ok (match firstAtOrBefore T ts with
          | some 0 => fs
          | some (k + 1) => idx + k
          | none => if ts.length = 0 then fs else idx + ts.length - 1) := by
  intro files
  induction files with
  | nil =>
    intro ts hts idx fs
    cases ts with
    | nil => simp [selectorGo, firstAtOrBefore]
    | cons t ts' => simp at hts
  | cons f rest ih =>
    intro ts hts idx fs
    cases ts with
    | nil => simp at hts
    | cons t ts' =>
      simp only [List.map_cons, List.cons.injEq] at hts
      obtain ⟨h1, h2⟩ := hts
      simp only [selectorGo, h1]
      by_cases hT : T ≥ t
      · rw [if_pos hT]
        simp [firstAtOrBefore, hT]
      · rw [if_neg hT]
        rw [ih ts' h2 (idx + 1) idx]
        simp only [firstAtOrBefore, hT, if_false]
        cases hfi : firstAtOrBefore T ts' with
        | none =>
          simp only [hfi, Option.map_none, Option.map_none']
          cases ts' with
          | nil => simp
          | cons u us =>
            simp only [List.length_cons, List.length_nil]
            refine congrArg Except.ok ?_
            have e1 : us.length + 1 + 1 ≠ 0 := Nat.succ_ne_zero _
            have e2 : us.length + 1 ≠ 0 := Nat.succ_ne_zero _
            rw [if_neg e1, if_neg e2]
            omega
        | some i =>
          cases i with
          | zero => simp [hfi]
          | succ j =>
            simp only [hfi, Option.map_some, Option.map_some']
            refine congrArg Except.ok ?_
            exact Nat.add_right_comm idx 1 j

/-- C3 amended: walking the newest-first candidate list, when the
first file whose timestamp is at or before the state timestamp sits at
position k+1, the scanned sequence consists of exactly the k+1 files
strictly newer than it, the resume-point file itself excluded; when
that file is the newest one, or when no file is at or before the state
timestamp, all candidate files are scanned. The sequence is always
non-empty, visits indexes in decreasing order of recency, and ends at
the current file, index 0. -/
theorem resolvedScanIndexes_characterization (files : List LogFile) (ts : List Int) (T : Int)
    (hne : files ≠ []) (hts : files.map LogFile.mtime = ts.map Except.ok) :
    resolvedScanIndexes files T = Except.ok (List.range (resumeScanCount T ts)).reverse
    ∧ 1 ≤ resumeScanCount T ts
    ∧ ((List.range (resumeScanCount T ts)).reverse).getLast? = some 0 := by
  have hlen : files.length = ts.length := by
    have h := congrArg List.length hts
    simpa using h
  have hpos : 1 ≤ files.length := by
    cases files with
    | nil => exact absurd rfl hne
    | cons f r => simp
  have h0 : ts.length ≠ 0 := by omega
  have hsel := selectorGo_spec T files ts hts 0 (files.length - 1)
  have hcount : (match firstAtOrBefore T ts with
      | some 0 => files.length - 1
      | some (k + 1) => 0 + k
      | none => if ts.length = 0 then files.length - 1 else 0 + ts.length - 1) + 1
      = resumeScanCount T ts := by
    cases hfi : firstAtOrBefore T ts with
    | none =>
      simp only [resumeScanCount, hfi, if_neg h0]
      have hgoal : 0 + ts.length - 1 + 1 = ts.length := by omega
      exact hgoal
    | some i =>
      cases i with
      | zero =>
        simp only [resumeScanCount, hfi]
        have hgoal : files.length - 1 + 1 = ts.length := by omega
        exact hgoal
      | succ j =>
        simp only [resumeScanCount, hfi]
        have hgoal : 0 + j + 1 = j + 1 := by omega
        exact hgoal
  have hone : 1 ≤ resumeScanCount T ts := by
    rw [← hcount]
    exact Nat.le_add_left 1 _
  refine ⟨?_, hone, ?_⟩
  · simp only [resolvedScanIndexes, fileSelector, hsel]
    rw [hcount]
  · rw [List.getLast?_reverse, List.head?_range]
    rw [if_neg (by omega)]

/-- Witness for resolvedScanIndexes_characterization at timestamps 100
and 50 against state timestamp 70: the newest-first walk stops at
position 1, one file is scanned, and the scan list is the single index
0. -/
theorem resolvedScanIndexes_characterization_witness :
    resolvedScanIndexes [currentOneLineFx, rotatedOneLineFx] 70
        = Except.ok (List.range (resumeScanCount 70 [100, 50])).reverse
    ∧ 1 ≤ resumeScanCount 70 [100, 50]
    ∧ ((List.range (resumeScanCount 70 [100, 50])).reverse).getLast? = some 0 := by
  exact resolvedScanIndexes_characterization [currentOneLineFx, rotatedOneLineFx]
    [100, 50] 70 (by simp) rfl

/-- C9: the in-flight message is handed to the classifier with its
text still empty both when a file yields no unskipped lines (flush at
end of file) and when the first unskipped line is itself a boundary
(flush at the boundary), so a pattern that matches the empty string
produces a matched Message whose text is the empty string. -/
theorem classifier_sees_empty_messages
    (s : ProblemType) (p : Matcher) (lr : Matcher) (l : String) (M : Match)
    (hp : p "" = true) (hl : lr l = true) :
    (scanFileLines lr [(s, p)] (-1) [] 0 Message.new M).messages
      = M.messages ++ [⟨0, s, ""⟩]
    ∧ (scanFileLines lr [(s, p)] (-1) [Except.ok l] 0 Message.new M).messages
      = M.messages ++ ⟨0, s, ""⟩ :: (if p (l ++ "\n") = true then [⟨0, s, l ++ "\n"⟩] else []) := by
  constructor
  · show ((find_in_message Message.new [(s, p)] M).2).messages = _
    rw [show Message.new = (⟨0, ProblemType.UNKNOWN, ""⟩ : Message) from rfl]
    rw [find_in_message_msgs]
    simp [hp]
  · simp only [scanFileLines]
    rw [if_neg (by omega)]
    simp only [hl, if_true, Message.new]
    rw [show ({ line_number := 0, message_type := ProblemType.UNKNOWN, message := "" } : Message)
        = (⟨0, ProblemType.UNKNOWN, ""⟩ : Message) from rfl]
    rw [find_in_message_msgs]
    simp only [scanFileLines]
    rw [show ("" ++ l ++ "\n") = l ++ "\n" by simp]
    rw [find_in_message_msgs]
    by_cases h2 : p (l ++ "\n") = true
    · simp [hp, h2, List.filter_cons]
    · simp [hp, h2, List.filter_cons]

/-- Witness for classifier_sees_empty_messages: an always-true pattern
and boundary on the one-line file x produce the empty-text CRITICAL
message in both scenarios. -/
theorem classifier_sees_empty_messages_witness :
    (scanFileLines (fun _ => true) [(ProblemType.CRITICAL, fun _ => true)] (-1) [] 0
        Message.new ⟨"log", 0, -1, 9, [], 0⟩).messages
      = [⟨0, ProblemType.CRITICAL, ""⟩]
    ∧ (scanFileLines (fun _ => true) [(ProblemType.CRITICAL, fun _ => true)] (-1)
        [Except.ok "x"] 0 Message.new ⟨"log", 0, -1, 9, [], 0⟩).messages
      = [⟨0, ProblemType.CRITICAL, ""⟩, ⟨0, ProblemType.CRITICAL, "x\n"⟩] := by
  have h := classifier_sees_empty_messages ProblemType.CRITICAL (fun _ => true)
    (fun _ => true) "x" ⟨"log", 0, -1, 9, [], 0⟩ rfl rfl
  simpa using h

/-- Bool-level membership bridge for the message scans of main.rs. -/
lemma any_msg_iff (ms : List Match) (pt : ProblemType) :
    (ms.any (fun m => m.messages.any (fun msg => decide (msg.message_type = pt))) = true)
      ↔ ∃ msg ∈ allMessages ms, msg.message_type = pt := by
  simp only [allMessages, List.any_eq_true, List.mem_flatten, List.mem_map, decide_eq_true_eq]
  constructor
  · rintro ⟨m, hm, msg, hmsg, h⟩
    exact ⟨msg, ⟨m.messages, ⟨m, hm, rfl⟩, hmsg⟩, h⟩
  · rintro ⟨msg, ⟨l, ⟨m, hm, rfl⟩, hmsg⟩, h⟩
    exact ⟨m, hm, msg, hmsg, h⟩

/-- C7 amended: the overall problem type is the maximum-urgency
severity (CRITICAL above WARNING above OK) over the fresh messages and
the still-active kept matches together, with the kept matches consulted
whether or not retention is enabled, and the process exit code is the
numeric value of that severity (OK 0, WARNING 1, CRITICAL 2, UNKNOWN
3). -/
theorem overallCode_is_max_severity_of_fresh_and_kept (fresh kept : List Match) :
    (overallCode fresh kept = ProblemType.CRITICAL ↔
      ∃ msg ∈ allMessages (fresh ++ kept), msg.message_type = ProblemType.CRITICAL)
    ∧ (overallCode fresh kept = ProblemType.WARNING ↔
      ((∀ msg ∈ allMessages (fresh ++ kept), msg.message_type ≠ ProblemType.CRITICAL)
        ∧ ∃ msg ∈ allMessages (fresh ++ kept), msg.message_type = ProblemType.WARNING))
    ∧ (overallCode fresh kept = ProblemType.OK ↔
      ∀ msg ∈ allMessages (fresh ++ kept),
        msg.message_type ≠ ProblemType.CRITICAL ∧ msg.message_type ≠ ProblemType.WARNING)
    ∧ exitCode (overallCode fresh kept) = ProblemType.code (overallCode fresh kept)
    ∧ ProblemType.code ProblemType.OK = 0 ∧ ProblemType.code ProblemType.WARNING = 1
    ∧ ProblemType.code ProblemType.CRITICAL = 2 ∧ ProblemType.code ProblemType.UNKNOWN = 3 := by
  have hc : (fresh.any Match.any_critical || kept.any Match.any_critical) = true
      ↔ ∃ msg ∈ allMessages (fresh ++ kept), msg.message_type = ProblemType.CRITICAL := by
    rw [← List.any_append]
    exact any_msg_iff (fresh ++ kept) ProblemType.CRITICAL
  have hw : (fresh.any Match.any_warning || kept.any Match.any_warning) = true
      ↔ ∃ msg ∈ allMessages (fresh ++ kept), msg.message_type = ProblemType.WARNING := by
    rw [← List.any_append]
    exact any_msg_iff (fresh ++ kept) ProblemType.WARNING
  refine ⟨?_, ?_, ?_, rfl, rfl, rfl, rfl, rfl⟩
  · unfold overallCode
    by_cases h1 : (fresh.any Match.any_critical || kept.any Match.any_critical) = true
    · rw [if_pos h1]
      simpa using hc.mp h1
    · rw [if_neg h1]
      constructor
      · intro h2
        split at h2
        · exact absurd h2 (by decide)
        · exact absurd h2 (by decide)
      · intro hex
        exact absurd (hc.mpr hex) h1
  · unfold overallCode
    by_cases h1 : (fresh.any Match.any_critical || kept.any Match.any_critical) = true
    · rw [if_pos h1]
      constructor
      · intro h; exact absurd h (by decide)
      · rintro ⟨hnone, _⟩
        obtain ⟨msg, hmsg, hty⟩ := hc.mp h1
        exact absurd hty (hnone msg hmsg)
    · rw [if_neg h1]
      by_cases h2 : (fresh.any Match.any_warning || kept.any Match.any_warning) = true
      · rw [if_pos h2]
        constructor
        · intro _
          refine ⟨?_, hw.mp h2⟩
          intro msg hmsg hty
          exact h1 (hc.mpr ⟨msg, hmsg, hty⟩)
        · intro _; rfl
      · rw [if_neg h2]
        constructor
        · intro h; exact absurd h (by decide)
        · rintro ⟨_, hex⟩
          exact absurd (hw.mpr hex) h2
  · unfold overallCode
    by_cases h1 : (fresh.any Match.any_critical || kept.any Match.any_critical) = true
    · rw [if_pos h1]
      constructor
      · intro h; exact absurd h (by decide)
      · intro hall
        obtain ⟨msg, hmsg, hty⟩ := hc.mp h1
        exact absurd hty (hall msg hmsg).1
    · rw [if_neg h1]
      by_cases h2 : (fresh.any Match.any_warning || kept.any Match.any_warning) = true
      · rw [if_pos h2]
        constructor
        · intro h; exact absurd h (by decide)
        · intro hall
          obtain ⟨msg, hmsg, hty⟩ := hw.mp h2
          exact absurd hty (hall msg hmsg).2
      · rw [if_neg h2]
        constructor
        · intro _
          intro msg hmsg
          constructor
          · intro hty; exact h1 (hc.mpr ⟨msg, hmsg, hty⟩)
          · intro hty; exact h2 (hw.mpr ⟨msg, hmsg, hty⟩)
        · intro _; rfl

/-- The kept list produced by the prune-and-append step. -/
lemma pruneAppend_fst (kept : List Match) (result : Match) (ks now : Int) :
    (pruneAppend kept result ks now).1
      = kept.filter (fun m => decide (m.keep_until ≥ now))
        ++ (if 0 < ks ∧ 0 < result.messages.length
            then [{ result with keep_until := now + ks }] else []) := by
  by_cases h : 0 < ks ∧ 0 < result.messages.length <;> simp [pruneAppend, h]

/-- The fresh Match produced by the prune-and-append step. -/
lemma pruneAppend_snd (kept : List Match) (result : Match) (ks now : Int) :
    (pruneAppend kept result ks now).2
      = if 0 < ks ∧ 0 < result.messages.length
        then { result with keep_until := now + ks } else result := by
  by_cases h : 0 < ks ∧ 0 < result.messages.length <;> simp [pruneAppend, h]

/-- Unfolding of the per-stream state mutation. -/
lemma updateState_fst (st : State) (ks : Int) (sr : StreamRun) :
    (updateState st ks sr).1
      = { st with
          kept_matches := (pruneAppend st.kept_matches sr.result ks sr.now).1,
          line_number := (pruneAppend st.kept_matches sr.result ks sr.now).2.last_line_number,
          size := (pruneAppend st.kept_matches sr.result ks sr.now).2.file_size,
          modified := sr.file0_created } := rfl

/-- The per-stream mutation returns the prune-and-append Match. -/
lemma updateState_snd (st : State) (ks : Int) (sr : StreamRun) :
    (updateState st ks sr).2 = (pruneAppend st.kept_matches sr.result ks sr.now).2 := rfl

/-- When the lookup finds no state, no state has the stream path. -/
lemma applyStates_none_filter (ks : Int) (sr : StreamRun) :
    ∀ states : List State, applyStates ks sr states = none →
    states.filter (fun st => decide (st.path = sr.path)) = [] := by
  intro states
  induction states with
  | nil => intro _; rfl
  | cons st rest ih =>
    intro h
    simp only [applyStates] at h
    by_cases hp : st.path = sr.path
    · rw [if_pos hp] at h
      exact absurd h (by simp)
    · rw [if_neg hp] at h
      cases hrec : applyStates ks sr rest with
      | some x =>
        rw [hrec] at h
        cases x with
        | mk a b => simp at h
      | none =>
        have hd : (decide (st.path = sr.path)) = false := by simp [hp]
        simp only [List.filter_cons, hd, if_false]
        exact ih hrec

/-- The Match returned by the lookup-and-mutate pass does not depend
on which state was found. -/
lemma applyStates_snd (ks : Int) (sr : StreamRun) :
    ∀ (states states' : List State) (m : Match),
    applyStates ks sr states = some (states', m) →
    m = (pruneAppend [] sr.result ks sr.now).2 := by
  intro states
  induction states with
  | nil => intro states' m h; exact absurd h (by simp [applyStates])
  | cons st rest ih =>
    intro states' m h
    simp only [applyStates] at h
    by_cases hp : st.path = sr.path
    · rw [if_pos hp] at h
      have hm : m = (updateState st ks sr).2 := by
        cases h; rfl
      rw [hm, updateState_snd, pruneAppend_snd, pruneAppend_snd]
    · rw [if_neg hp] at h
      cases hrec : applyStates ks sr rest with
      | some x =>
        rw [hrec] at h
        cases x with
        | mk a b =>
          have : states' = st :: a ∧ m = b := by
            cases h; exact ⟨rfl, rfl⟩
          exact this.2 ▸ ih a b hrec
      | none =>
        rw [hrec] at h
        exact absurd h (by simp)

/-- The kept matches collected for the stream path after the
lookup-and-mutate pass: the old ones that survive the pruning, then the
appended fresh match when retention applies. -/
lemma applyStates_some_kept (ks : Int) (sr : StreamRun) :
    ∀ (states states' : List State) (m : Match),
    applyStates ks sr states = some (states', m) →
    states.countP (fun st => decide (st.path = sr.path)) ≤ 1 →
    ((states'.filter (fun st => decide (st.path = sr.path))).map State.kept_matches).flatten
      = (((states.filter (fun st => decide (st.path = sr.path))).map State.kept_matches).flatten).filter
          (fun mm => decide (mm.keep_until ≥ sr.now))
        ++ (if 0 < ks ∧ 0 < sr.result.messages.length
            then [{ sr.result with keep_until := sr.now + ks }] else []) := by
  intro states
  induction states with
  | nil => intro states' m h; exact absurd h (by simp [applyStates])
  | cons st rest ih =>
    intro states' m h hcount
    simp only [applyStates] at h
    by_cases hp : st.path = sr.path
    · rw [if_pos hp] at h
      have hs : states' = (updateState st ks sr).1 :: rest := by
        cases h; rfl
      have hcnt0 : rest.countP (fun st => decide (st.path = sr.path)) = 0 := by
        have hd : (decide (st.path = sr.path)) = true := by simp [hp]
        simp only [List.countP_cons, hd, if_true] at hcount
        omega
      have hfil : rest.filter (fun st => decide (st.path = sr.path)) = [] := by
        rw [List.filter_eq_nil_iff]
        intro a ha hpa
        have := List.countP_eq_zero.mp hcnt0 a ha
        exact this hpa
      have hupdp : ((updateState st ks sr).1).path = st.path := rfl
      have hd : (decide (((updateState st ks sr).1).path = sr.path)) = true := by
        simp [hupdp, hp]
      have hd2 : (decide (st.path = sr.path)) = true := by simp [hp]
      rw [hs]
      simp only [List.filter_cons, hd, hd2, if_true, hfil,
        List.map_cons, List.map_nil, List.flatten_cons, List.flatten_nil,
        List.append_nil]
      rw [updateState_fst]
      simp only []
      rw [pruneAppend_fst]
    · rw [if_neg hp] at h
      cases hrec : applyStates ks sr rest with
      | some x =>
        rw [hrec] at h
        cases x with
        | mk a b =>
          have hs : states' = st :: a := by
            cases h; rfl
          have hd : (decide (st.path = sr.path)) = false := by simp [hp]
          have hcnt : rest.countP (fun st => decide (st.path = sr.path)) ≤ 1 := by
            simp only [List.countP_cons, hd, if_false] at hcount
            omega
          rw [hs]
          simp only [List.filter_cons, hd, if_false]
          exact ih a b hrec hcnt
      | none =>
        rw [hrec] at h
        exact absurd h (by simp)

/-- keptMatchesOf at a single configured path. -/
lemma keptMatchesOf_single (doc : StateDoc) (p : String) :
    keptMatchesOf doc [p]
      = ((doc.states.filter (fun st => decide (st.path = p))).map State.kept_matches).flatten := by
  simp [keptMatchesOf]

/-- Processing a stream rewrites its kept-match collection to pruned
old matches plus the conditionally appended fresh one, whether the
state existed or was created. -/
lemma keptMatchesOf_applyStream (doc : StateDoc) (ks : Int) (sr : StreamRun)
    (hu : doc.states.countP (fun st => decide (st.path = sr.path)) ≤ 1) :
    keptMatchesOf (applyStream doc ks sr).1 [sr.path]
      = (keptMatchesOf doc [sr.path]).filter (fun m => decide (m.keep_until ≥ sr.now))
        ++ (if 0 < ks ∧ 0 < sr.result.messages.length
            then [{ sr.result with keep_until := sr.now + ks }] else []) := by
  rw [keptMatchesOf_single, keptMatchesOf_single]
  cases happ : applyStates ks sr doc.states with
  | some x =>
    cases x with
    | mk states' m =>
      have : (applyStream doc ks sr).1 = ⟨states'⟩ := by
        simp [applyStream, happ]
      rw [this]
      exact applyStates_some_kept ks sr doc.states states' m happ hu
  | none =>
    have hfil := applyStates_none_filter ks sr doc.states happ
    have h1 : (applyStream doc ks sr).1 = ⟨doc.states ++ [(updateState (State.new sr.path) ks sr).1]⟩ := by
      simp [applyStream, happ]
    rw [h1]
    have hd : (decide (((updateState (State.new sr.path) ks sr).1).path = sr.path)) = true := by
      simp [updateState_fst, State.new]
    rw [List.filter_append, hfil]
    simp only [List.nil_append, List.filter_cons, hd, if_true, List.filter_nil,
      List.map_cons, List.map_nil, List.flatten_cons, List.flatten_nil, List.append_nil]
    rw [updateState_fst]
    simp only []
    rw [pruneAppend_fst]
    simp [State.new]

/-- The fresh Match main.rs pushes for a stream, with keep_until
updated exactly when retention applies. -/
lemma applyStream_snd (doc : StateDoc) (ks : Int) (sr : StreamRun) :
    (applyStream doc ks sr).2
      = if 0 < ks ∧ 0 < sr.result.messages.length
        then { sr.result with keep_until := sr.now + ks } else sr.result := by
  cases happ : applyStates ks sr doc.states with
  | some x =>
    cases x with
    | mk states' m =>
      have h2 : (applyStream doc ks sr).2 = m := by simp [applyStream, happ]
      rw [h2, applyStates_snd ks sr doc.states states' m happ, pruneAppend_snd]
  | none =>
    have h2 : (applyStream doc ks sr).2 = (updateState (State.new sr.path) ks sr).2 := by
      simp [applyStream, happ]
    rw [h2, updateState_snd, pruneAppend_snd]

/-- C8 amended: for the stream processed in a run, kept alerts whose
expiry is strictly before the pruning time are removed before the new
one is appended, and every kept alert visible to the aggregator for
that stream afterwards has expiry at or after the pruning time, so no
expired kept alert of a processed stream survives; states of streams
not configured in the run are left untouched. -/
theorem applyStream_prunes_expired_then_appends (doc : StateDoc) (ks : Int) (sr : StreamRun)
    (hu : doc.states.countP (fun st => decide (st.path = sr.path)) ≤ 1) :
    keptMatchesOf (applyStream doc ks sr).1 [sr.path]
      = (keptMatchesOf doc [sr.path]).filter (fun m => decide (m.keep_until ≥ sr.now))
        ++ (if 0 < ks ∧ 0 < sr.result.messages.length
            then [{ sr.result with keep_until := sr.now + ks }] else [])
    ∧ ∀ m ∈ keptMatchesOf (applyStream doc ks sr).1 [sr.path], sr.now ≤ m.keep_until := by
  have h1 := keptMatchesOf_applyStream doc ks sr hu
  refine ⟨h1, ?_⟩
  intro m hm
  rw [h1] at hm
  rcases List.mem_append.mp hm with hmem | hmem
  · have := List.of_mem_filter hmem
    simpa using this
  · by_cases hc : 0 < ks ∧ 0 < sr.result.messages.length
    · rw [if_pos hc] at hmem
      simp at hmem
      rw [hmem]
      simp
      omega
    · rw [if_neg hc] at hmem
      exact absurd hmem (by simp)

/-- The count fold of main.rs is a sum. -/
lemma totalCount_eq_sum (count : Match → Nat) :
    ∀ (l : List Match) (c : Nat), l.foldl (fun c m => c + count m) c = c + (l.map count).sum := by
  intro l
  induction l with
  | nil => intro c; simp [List.foldl]
  | cons m rest ih =>
    intro c
    simp only [List.foldl, List.map_cons, List.sum_cons]
    rw [ih]
    omega

/-- Each member contributes at most the total of a count fold. -/
lemma mem_le_totalCount (count : Match → Nat) (l : List Match) (m : Match) (hm : m ∈ l) :
    count m ≤ totalCount count l := by
  unfold totalCount
  rw [totalCount_eq_sum]
  simp only [Nat.zero_add]
  induction l with
  | nil => cases hm
  | cons x rest ih =>
    simp only [List.map_cons, List.sum_cons]
    rcases List.mem_cons.mp hm with h | h
    · rw [h]; omega
    · have := ih h
      omega

/-- C10: when retention is enabled and the run produced at least one
matched message for a stream, the fresh Match, with its expiry set to
now plus keep_status, is appended to the kept alerts before the kept
counts and detail text are computed: it is a member of the aggregated
kept list, the kept totals count its CRITICAL and WARNING messages,
and its rendered block appears in the detail output, which is taken
from the kept list when retention is enabled. -/
theorem fresh_match_counted_in_kept_totals (doc : StateDoc) (ks : Int) (sr : StreamRun) (fr : List Match)
    (hks : 0 < ks) (hmsg : 0 < sr.result.messages.length)
    (hu : doc.states.countP (fun st => decide (st.path = sr.path)) ≤ 1) :
    (applyStream doc ks sr).2 = { sr.result with keep_until := sr.now + ks }
    ∧ (applyStream doc ks sr).2 ∈ keptMatchesOf (applyStream doc ks sr).1 [sr.path]
    ∧ sr.result.count_critical
        ≤ totalCount Match.count_critical (keptMatchesOf (applyStream doc ks sr).1 [sr.path])
    ∧ sr.result.count_warning
        ≤ totalCount Match.count_warning (keptMatchesOf (applyStream doc ks sr).1 [sr.path])
    ∧ Match.render (applyStream doc ks sr).2
        ∈ detailBlocks ks (keptMatchesOf (applyStream doc ks sr).1 [sr.path]) fr := by
  have hcond : (0 < ks ∧ 0 < sr.result.messages.length) := ⟨hks, hmsg⟩
  have hsnd : (applyStream doc ks sr).2 = { sr.result with keep_until := sr.now + ks } := by
    rw [applyStream_snd, if_pos hcond]
  have hkept := keptMatchesOf_applyStream doc ks sr hu
  have hmem : (applyStream doc ks sr).2 ∈ keptMatchesOf (applyStream doc ks sr).1 [sr.path] := by
    rw [hkept, hsnd, if_pos hcond]
    exact List.mem_append_right _ (by simp)
  refine ⟨hsnd, hmem, ?_, ?_, ?_⟩
  · have h1 : sr.result.count_critical = Match.count_critical (applyStream doc ks sr).2 := by
      rw [hsnd]
      simp [Match.count_critical]
    rw [h1]
    exact mem_le_totalCount _ _ _ hmem
  · have h1 : sr.result.count_warning = Match.count_warning (applyStream doc ks sr).2 := by
      rw [hsnd]
      simp [Match.count_warning]
    rw [h1]
    exact mem_le_totalCount _ _ _ hmem
  · unfold detailBlocks
    rw [if_pos hks]
    refine List.mem_map_of_mem Match.render ?_
    rw [List.mem_filter]
    refine ⟨hmem, ?_⟩
    rw [hsnd]
    simpa using hmsg

/-- Witness for applyStream_prunes_expired_then_appends on the kept
document fixture at keep_status 60. -/
theorem applyStream_prunes_expired_then_appends_witness :
    keptMatchesOf (applyStream keptDocFx 60 quietRunFx).1 [quietRunFx.path]
      = (keptMatchesOf keptDocFx [quietRunFx.path]).filter (fun m => decide (m.keep_until ≥ quietRunFx.now))
        ++ (if 0 < (60 : Int) ∧ 0 < quietRunFx.result.messages.length
            then [{ quietRunFx.result with keep_until := quietRunFx.now + 60 }] else [])
    ∧ ∀ m ∈ keptMatchesOf (applyStream keptDocFx 60 quietRunFx).1 [quietRunFx.path],
        quietRunFx.now ≤ m.keep_until :=
  applyStream_prunes_expired_then_appends keptDocFx 60 quietRunFx (by decide)

/-- Witness for fresh_match_counted_in_kept_totals on the kept document
fixture with a fresh CRITICAL result at keep_status 60. -/
theorem fresh_match_counted_in_kept_totals_witness :
    (applyStream keptDocFx 60 critRunFx).2 = { critRunFx.result with keep_until := critRunFx.now + 60 }
    ∧ (applyStream keptDocFx 60 critRunFx).2 ∈ keptMatchesOf (applyStream keptDocFx 60 critRunFx).1 [critRunFx.path]
    ∧ critRunFx.result.count_critical
        ≤ totalCount Match.count_critical (keptMatchesOf (applyStream keptDocFx 60 critRunFx).1 [critRunFx.path])
    ∧ critRunFx.result.count_warning
        ≤ totalCount Match.count_warning (keptMatchesOf (applyStream keptDocFx 60 critRunFx).1 [critRunFx.path])
    ∧ Match.render (applyStream keptDocFx 60 critRunFx).2
        ∈ detailBlocks 60 (keptMatchesOf (applyStream keptDocFx 60 critRunFx).1 [critRunFx.path]) [] :=
  fresh_match_counted_in_kept_totals keptDocFx 60 critRunFx [] (by decide) (by decide) (by decide)

end CheckLogMultiline
